import Mathlib

/-!
Verification development for the object-storage core of wyag-rust
(`src/object.rs`): a shallow embedding of the byte scanner, the object
read/write pipeline, reference resolution, tree checkout and the ancestry
exporter, together with theorems settling the specification's claims.

Bytes are modelled as `Nat` (values < 256 in practice), Rust strings as
`List Char`, filesystem paths as lists of path components, and fallible
code as `Except`.  A Rust panic (a failed `unwrap`, an out-of-range slice
index, or stack exhaustion) is modelled as a distinct error constructor,
kept apart from the program's own `WitError` values.
-/

namespace Wyag

/-- The tagged error type of the crate (`error.rs` builders), one
constructor per builder used by `object.rs`.  Modelled from the spec:
"All errors are surfaced to the caller as a single tagged error type
carrying a human-readable message." -/
inductive WitError where
  | ioErr (msg : String)
  | malformedObject (msg : String)
  | unknownObject (msg : String)
  | unknownReference (msg : String)
  | ambiguousReference (msg : String)
  | missingData (msg : String)
  | repoNotFound (msg : String)
  | utf8Err (msg : String)
  | parseIntErr (msg : String)
deriving DecidableEq, Repr

/-- Outcome of running a fallible operation: either a `WitError` the code
itself constructs and propagates with `?`, or a Rust panic (which is not a
`WitError`; `unwrap` on `None`, an invalid slice index, or stack overflow). -/
inductive Err where
  | wit (e : WitError)
  | panicked (msg : String)
deriving DecidableEq, Repr

abbrev Res (α : Type) := Except Err α

instance {ε α : Type} [DecidableEq ε] [DecidableEq α] : DecidableEq (Except ε α) := fun a b =>
  match a, b with
  | .ok x, .ok y =>
    if h : x = y then .isTrue (by rw [h]) else .isFalse (fun hh => h (Except.ok.inj hh))
  | .ok _, .error _ => .isFalse (fun hh => Except.noConfusion hh)
  | .error _, .ok _ => .isFalse (fun hh => Except.noConfusion hh)
  | .error e, .error f =>
    if h : e = f then .isTrue (by rw [h]) else .isFalse (fun hh => h (Except.error.inj hh))

/-! ### Byte-Scanner (`trait Find`, `impl Find<T> for Vec<T>`)

The Rust impl is generic over `T : PartialEq + Debug`; the program only
ever instantiates it at `u8`, which is how it is embedded here.  Each
variant runs `self.iter().skip(start).position(|el| *el == element)`:
note that `position` counts from the start of the *skipped* iterator. -/

/-- `find_from`: position or a not-found `io_err` whose message is the
`Debug` rendering of the element (`format!("{:?} not found.", element)`). -/
def find_from (l : List Nat) (element : Nat) (start : Nat) : Res Nat :=
  match (l.drop start).findIdx? (fun el => el == element) with
  | some i => .ok i
  | none => .error (.wit (.ioErr (Nat.repr element ++ " not found.")))

/-- `find`: the trait's provided method, `find_from(element, 0)`. -/
def findD (l : List Nat) (element : Nat) : Res Nat :=
  find_from l element 0

/-- `find_some`: optional position, `None` on a miss. -/
def find_some (l : List Nat) (element : Nat) (start : Nat) : Option Nat :=
  (l.drop start).findIdx? (fun el => el == element)

/-- `find_signed`: signed position with `-1` as the not-found sentinel. -/
def find_signed (l : List Nat) (element : Nat) (start : Nat) : Int :=
  match (l.drop start).findIdx? (fun el => el == element) with
  | some idx => (idx : Int)
  | none => -1

/-- `find_exact`: `position(...).unwrap()`, panicking when absent. -/
def find_exact (l : List Nat) (element : Nat) (start : Nat) : Res Nat :=
  match (l.drop start).findIdx? (fun el => el == element) with
  | some idx => .ok idx
  | none => .error (.panicked "called Option::unwrap on a None value")

/-! ### Filesystem and Repository Context

The filesystem (`std::fs`) is embedded as an explicit state: a map from
paths — lists of path components, each component a `List Char` — to file
contents, plus the set of existing directories.  The Repository Context
lives outside `src/`; it is modelled from the spec's collaborator
contract (§6): `file(components, create_parents)` and
`dir(components, create_parents)` resolve logical components to a
location under the repository root, failing with a path-not-found error
when `create_parents` is false and the location is absent. -/

/-- A path: components below the filesystem root. -/
abbrev FsPath := List (List Char)

/-- Filesystem state: file contents by path, plus existing directories. -/
structure FS where
  files : List (FsPath × List Nat)
  dirs : List FsPath
deriving DecidableEq, Repr

/-- Modelled from the spec: the Repository Context resolves logical paths
to filesystem locations; `gitdir` is its root, `head` the digest the
external symbolic-reference mechanism resolves `HEAD` to. -/
structure Repository where
  gitdir : FsPath
  head : Option (List Char)
deriving DecidableEq, Repr

/-- `fs::read`: the file's bytes, or an I/O error when it is absent. -/
def fsRead (fs : FS) (p : FsPath) : Res (List Nat) :=
  match fs.files.find? (fun e => decide (e.1 = p)) with
  | some e => .ok e.2
  | none => .error (.wit (.ioErr "No such file or directory"))

/-- `fs::write`: create or truncate-and-replace the file at `p`. -/
def fsWrite (fs : FS) (p : FsPath) (content : List Nat) : FS :=
  { fs with files := fs.files.filter (fun e => decide (e.1 ≠ p)) ++ [(p, content)] }

/-- All ancestor paths of `p`, the root included. -/
def ancestorPaths (p : FsPath) : List FsPath :=
  (List.range (p.length + 1)).map (fun i => p.take i)

/-- Record the directories in `ds` as existing (ignoring duplicates). -/
def addDirs (fs : FS) (ds : List FsPath) : FS :=
  { fs with dirs := fs.dirs ++ ds.filter (fun d => decide (d ∉ fs.dirs)) }

/-- `fs::create_dir_all`: create the directory and every missing parent. -/
def createDirAll (fs : FS) (p : FsPath) : FS :=
  addDirs fs (ancestorPaths p)

/-- `fs::read_dir`: the filenames of the files lying directly inside `p`
(in the order the state lists them). -/
def childrenOf (fs : FS) (p : FsPath) : List (List Char) :=
  fs.files.filterMap (fun e =>
    match e.1.reverse with
    | [] => none
    | f :: rest => if rest.reverse = p then some f else none)

/-- Modelled from the spec: `Repository::file(repo, components, create)`
resolves `components` to a file location under `gitdir`, creating any
missing parent directories when `create` is true and failing with a
path-not-found error when `create` is false and the parent directory is
absent. -/
def Repository.file (fs : FS) (repo : Repository) (comps : FsPath) (create : Bool) :
    Res (FsPath × FS) :=
  let full := repo.gitdir ++ comps
  let parent := full.dropLast
  if create then .ok (full, addDirs fs (ancestorPaths parent))
  else if fs.dirs.contains parent then .ok (full, fs)
  else .error (.wit (.ioErr "Path not found"))

/-- Modelled from the spec: `Repository::dir(repo, components, create)`
resolves `components` to a directory location under `gitdir`, failing
with a path-not-found error when `create` is false and the directory is
absent. -/
def Repository.dir (fs : FS) (repo : Repository) (comps : FsPath) (create : Bool) :
    Res FsPath :=
  let full := repo.gitdir ++ comps
  if create then .ok full
  else if fs.dirs.contains full then .ok full
  else .error (.wit (.ioErr "Path not found"))

/-- Modelled from the spec: `reference::resolve(repo, "HEAD")` delegates
to the external symbolic-reference mechanism, producing exactly one
digest (or failing when `HEAD` cannot be resolved). -/
def referenceResolve (fs : FS) (repo : Repository) (name : String) : Res (List Char) :=
  match fs, name, repo.head with
  | _, _, some d => .ok d
  | _, _, none => .error (.wit (.ioErr "Could not resolve HEAD"))

/-! ### Bytes, text and the digest -/

/-- The bytes of an ASCII string literal (`str::as_bytes`). -/
def strBytes (s : String) : List Nat :=
  s.toList.map Char.toNat

/-- The bytes of a `List Char` name (`String::as_bytes` on it). -/
def charsBytes (l : List Char) : List Nat :=
  l.map Char.toNat

/-- `String::from_utf8(..).unwrap_or(dflt)`, on the ASCII fragment the
program actually produces. -/
def bytesToStrOr (bs : List Nat) (dflt : String) : String :=
  if bs.all (fun b => b < 128) then String.mk (bs.map Char.ofNat) else dflt

/-- `std::str::from_utf8`, on the ASCII fragment: fails with the crate's
`utf8_err` outside it. -/
def fromUtf8 (bs : List Nat) : Res (List Char) :=
  if bs.all (fun b => b < 128) then .ok (bs.map Char.ofNat)
  else .error (.wit (.utf8Err "invalid utf-8 sequence"))

/-- `str::parse::<usize>` on ASCII digits (the one shape the frames carry). -/
def parseUsize (cs : List Char) : Res Nat :=
  if cs ≠ [] ∧ cs.all (fun c => ('0' ≤ c) && (c ≤ '9')) then
    .ok (cs.foldl (fun a c => a * 10 + (c.toNat - 48)) 0)
  else .error (.wit (.parseIntErr "invalid digit found in string"))

/-- `usize::to_string().as_bytes()`: decimal ASCII digits of `n`. -/
def asciiOfNat (n : Nat) : List Nat :=
  (Nat.toDigits 10 n).map Char.toNat

/-- The hex digit character for `k < 16` (lowercase). -/
def hexDigitChar (k : Nat) : Char :=
  if k < 10 then Char.ofNat (48 + k) else Char.ofNat (87 + k)

/-- A 160-bit value as 40 lowercase hex characters (most significant first). -/
def hexChars40 (n : Nat) : List Char :=
  (List.range 40).map (fun i => hexDigitChar (n / 16 ^ (39 - i) % 16))

/-- The external content digest (`crypto::sha1`) rendered as 40 lowercase
hex characters.  The real SHA-1 compression function is outside this
program; it is modelled by a computable stand-in digest of the same
shape, since the development depends only on the digest being a
deterministic function of the framed bytes with this 40-hex form, never
on SHA-1's internals. -/
def sha1hex (bytes : List Nat) : List Char :=
  hexChars40 (bytes.foldl (fun a b => (a * 257 + b + 1) % 2 ^ 160) 7)

/-- The zlib codec (`flate2`) is an invertible external stream coder; it
is modelled as the identity on byte lists.  Nothing in the development
depends on the compressed representation: the read path requests zero
bytes from its decoder (see `read`), and no claim inspects stored bytes
beyond their location. -/
def zlibEncode (bytes : List Nat) : List Nat := bytes

/-- Decoding side of the codec model (see `zlibEncode`). -/
def zlibDecodeStream (bytes : List Nat) : List Nat := bytes

/-- `Read::read_exact(&mut buf)`: fills exactly `buf.length` bytes from
the stream, failing when the stream is shorter.  In `read` below the
buffer is `Vec::new()`, so zero bytes are requested and the buffer stays
empty whatever the stream holds. -/
def readExactInto (buf : List Nat) (stream : List Nat) : Res (List Nat) :=
  if buf.length ≤ stream.length then .ok (stream.take buf.length)
  else .error (.wit (.ioErr "failed to fill whole buffer"))

/-- Rust slice indexing `&l[a..b]`, panicking when the range is invalid. -/
def sliceRange (l : List Nat) (a b : Nat) : Res (List Nat) :=
  if a ≤ b ∧ b ≤ l.length then .ok ((l.drop a).take (b - a))
  else .error (.panicked "slice index out of range")

/-! ### Object kinds (`blob.rs`, `commit.rs`, `tree.rs`, `tag.rs`)

These collaborators live outside `src/`; each is modelled from the spec:
every kind provides `serialize() -> bytes` (payload only), `fmt() ->
kind-tag bytes` and `repository-association()`; a commit/tag is a
key/value ordered multi-map (the free-text message is folded into the map
model — the core reads only the `parent`, `tree` and `object` keys); a
tree is an ordered list of leaves, each with a mode, a path segment and a
child digest. -/

/-- A key/value ordered multi-map (kvlm) entry list. -/
abbrev Kvlm := List (String × List (List Char))

/-- `kvlm.get(key)`: the first value list stored under `key`. -/
def kvlmGet (kv : Kvlm) (key : String) : Option (List (List Char)) :=
  (kv.find? (fun p => decide (p.1 = key))).map (fun p => p.2)

/-- Modelled from the spec: the kvlm serialization is the collaborator's
concern; any total encoding of the entries suffices for the claims. -/
def serializeKvlm (kv : Kvlm) : List Nat :=
  kv.foldr (fun p acc =>
    strBytes p.1 ++ [32] ++ (p.2.foldr (fun v a => charsBytes v ++ [10] ++ a) []) ++ acc) []

/-- `Blob<'a>`: an opaque byte payload borrowing an optional repository. -/
structure Blob where
  repo : Option Repository
  data : List Nat
deriving DecidableEq, Repr

/-- `Blob::new(repo, data)`. -/
def Blob.new (repo : Option Repository) (data : List Nat) : Blob :=
  { repo := repo, data := data }

/-- `Blob::serialize`: the raw payload. -/
def Blob.serialize (b : Blob) : Res (List Nat) := .ok b.data

/-- `Blob::fmt`: the kind tag. -/
def Blob.fmt (_ : Blob) : List Nat := strBytes "blob"

/-- `Commit<'a>`: a kvlm borrowing an optional repository. -/
structure Commit where
  repo : Option Repository
  kvlm : Kvlm
deriving DecidableEq, Repr

/-- `Commit::new(repo)`: an initially-empty structure, expected to be
populated by the caller's subsequent deserialize step (spec §4.2). -/
def Commit.new (repo : Option Repository) : Commit :=
  { repo := repo, kvlm := [] }

/-- `Commit::serialize` (modelled from the spec, see `serializeKvlm`). -/
def Commit.serialize (c : Commit) : Res (List Nat) := .ok (serializeKvlm c.kvlm)

/-- `Commit::fmt`: the kind tag. -/
def Commit.fmt (_ : Commit) : List Nat := strBytes "commit"

/-- One tree leaf: a mode, a path segment and a child digest. -/
structure TreeLeaf where
  mode : List Nat
  pathSeg : List Char
  sha : List Char
deriving DecidableEq, Repr

/-- Modelled from the spec: a total encoding of the leaf list (the actual
on-disk tree entry format is the collaborator's concern). -/
def serializeLeaves (ls : List TreeLeaf) : List Nat :=
  ls.foldr (fun l acc => l.mode ++ [32] ++ charsBytes l.pathSeg ++ [0] ++ charsBytes l.sha ++ acc) []

/-- `Tree`: the leaf list plus the raw payload it was deserialized from.
The source's `Tree` carries no lifetime parameter, hence no repository
borrow. -/
structure Tree where
  leaves : List TreeLeaf
  raw : List Nat
deriving DecidableEq, Repr

/-- `Tree::from(&data)`.  Modelled from the spec: the payload's entry-list
structure is owned by the external Tree collaborator (out of scope, spec
§1); deserialization retains the raw payload so `serialize` returns the
bytes it was built from, and no claim reads the parsed leaves of a
deserialized tree. -/
def Tree.from (data : List Nat) : Res Tree :=
  .ok { leaves := [], raw := data }

/-- `Tree::serialize`: the payload bytes. -/
def Tree.serialize (t : Tree) : Res (List Nat) := .ok t.raw

/-- `Tree::fmt`: the kind tag. -/
def Tree.fmt (_ : Tree) : List Nat := strBytes "tree"

/-- `Tree::repo`: absent — the source's `Tree` borrows no repository. -/
def Tree.repo (_ : Tree) : Option Repository := none

/-- `Tag<'a>`: a kvlm borrowing an optional repository (analogous to
`Commit`, with an `object` key pointing at the tagged digest). -/
structure Tag where
  repo : Option Repository
  kvlm : Kvlm
deriving DecidableEq, Repr

/-- `Tag::new(repo)`: an initially-empty structure. -/
def Tag.new (repo : Option Repository) : Tag :=
  { repo := repo, kvlm := [] }

/-- `Tag::serialize` (modelled from the spec, see `serializeKvlm`). -/
def Tag.serialize (t : Tag) : Res (List Nat) := .ok (serializeKvlm t.kvlm)

/-- `Tag::fmt`: the kind tag. -/
def Tag.fmt (_ : Tag) : List Nat := strBytes "tag"

/-- `enum WitObject<'a>`: the closed union over the four object kinds. -/
inductive WitObject where
  | blobObject (b : Blob)
  | commitObject (c : Commit)
  | treeObject (t : Tree)
  | tagObject (t : Tag)
deriving DecidableEq, Repr

/-- `WitObject::serialize`: dispatch to the variant. -/
def WitObject.serialize : WitObject → Res (List Nat)
  | .blobObject b => b.serialize
  | .commitObject c => c.serialize
  | .treeObject t => t.serialize
  | .tagObject t => t.serialize

/-- `WitObject::fmt`: dispatch to the variant. -/
def WitObject.fmt : WitObject → List Nat
  | .blobObject b => b.fmt
  | .commitObject c => c.fmt
  | .treeObject t => t.fmt
  | .tagObject t => t.fmt

/-- `WitObject::repo`: dispatch to the variant. -/
def WitObject.repo : WitObject → Option Repository
  | .blobObject b => b.repo
  | .commitObject c => c.repo
  | .treeObject t => t.repo
  | .tagObject t => t.repo

/-! ### Object Store and Reference Resolver (`object.rs` lines 130-329) -/

/-- The `"objects"` path component. -/
def objectsC : List Char := "objects".toList

/-- `build(fmt, repo, data)` (`object.rs` 260-268): dispatch on the kind
string to construct the matching variant. -/
def build (fmt : String) (repo : Option Repository) (data : Option (List Nat)) :
    Res WitObject :=
  if fmt = "blob" then
    match data with
    | some d => .ok (.blobObject (Blob.new repo d))
    | none => .error (.wit (.missingData "Data is required to construct a blob."))
  else if fmt = "commit" then .ok (.commitObject (Commit.new repo))
  else if fmt = "tree" then
    match data with
    | some d => (Tree.from d).map WitObject.treeObject
    | none => .error (.wit (.missingData "Data is required to construct a tree."))
  else if fmt = "tag" then .ok (.tagObject (Tag.new repo))
  else .error (.wit (.unknownObject ("Unknown object type " ++ fmt)))

/-- `read(repo, sha)` (`object.rs` 130-148).  Faithful to the source line
by line: the decompressed buffer is `Vec::new()` filled by `read_exact`,
so it stays empty (see `readExactInto`); `y` is the NUL's index within
the slice `decoded[x..]`, not within `decoded`; the declared-length check
subtracts on `usize` (modelled with truncating `Nat` subtraction — the
branch is unreachable, the scan of the empty buffer having failed first);
and the payload is taken from the *compressed* bytes `raw`. -/
def read (fs : FS) (repo : Repository) (sha : List Char) : Res WitObject := do
  let pf ← Repository.file fs repo [objectsC, sha.take 2, sha.drop 2] false
  let raw ← fsRead fs pf.1
  let decoded ← readExactInto [] (zlibDecodeStream raw)
  let x ← findD decoded 32
  let fmtB := decoded.take x
  let y ← findD (decoded.drop x) 0
  let sizeBytes ← sliceRange decoded x y
  let sizeChars ← fromUtf8 sizeBytes
  let size ← parseUsize sizeChars
  if size ≠ decoded.length - y - 1 then
    .error (.wit (.malformedObject ("Malformed object " ++ String.mk sha ++ ": bad length")))
  else do
    let fmtChars ← fromUtf8 fmtB
    build (String.mk fmtChars) (some repo) (some (raw.drop (y + 1)))

/-- A character of the class `[0-9a-fA-F]`. -/
def isHexDigitChar (c : Char) : Bool :=
  (('0' ≤ c) && (c ≤ '9')) || (('a' ≤ c) && (c ≤ 'f')) || (('A' ≤ c) && (c ≤ 'F'))

/-- The anchored regex `^[0-9a-fA-F]{4,40}$` of `resolve` as a predicate. -/
def hashReMatch (name : List Char) : Bool :=
  (4 ≤ name.length) && (name.length ≤ 40) && name.all isHexDigitChar

/-- An ASCII whitespace character (`str::trim`'s class, on the ASCII
fragment reference names are drawn from). -/
def isWsChar (c : Char) : Bool :=
  (c == ' ') || (c == '\t') || (c == '\n') || (c == '\r')

/-- ASCII lowercasing (`str::to_lowercase` on the matched hex names). -/
def lowerChar (c : Char) : Char :=
  if ('A' ≤ c) && (c ≤ 'Z') then Char.ofNat (c.toNat + 32) else c

/-- `resolve(repo, name)` (`object.rs` 191-228).  `name.trim().len() == 0`
is `name.all isWsChar`; the per-entry `DirEntry` and `to_str` fallible
steps always succeed in the model (filenames are stored as `List Char`);
the `for` loop pushing matching candidates is the fold. -/
def resolve (fs : FS) (repo : Repository) (name : List Char) :
    Res (Option (List (List Char))) :=
  if name.all isWsChar then .ok none
  else if name = "HEAD".toList then
    match referenceResolve fs repo "HEAD" with
    | .ok d => .ok (some [d])
    | .error e => .error e
  else if hashReMatch name then
    let lname := name.map lowerChar
    if lname.length = 40 then .ok (some [lname])
    else
      match Repository.dir fs repo [objectsC, lname.take 2] false with
      | .ok path =>
        .ok (some ((childrenOf fs path).foldl
          (fun acc f =>
            if (lname.drop 2).isPrefixOf f then acc ++ [lname.take 2 ++ f] else acc) []))
      | .error _ => .ok (some [])
  else .ok (some [])

/-- `find(repo, name, fmt, follow)` (`object.rs` 150-188).  The source's
`loop` exits on every path of its first iteration (kind match returns the
digest; `!follow` returns an error; the trailing `return Err(...)` is
unconditional), so the body is embedded straight-line.  `sha.get(0)
.unwrap()` on an empty candidate list is a panic. -/
def find (fs : FS) (repo : Repository) (name : List Char) (fmt : Option String)
    (follow : Bool) : Res (List Char) := do
  let shaOpt ← resolve fs repo name
  let shas ← match shaOpt with
    | none =>
      .error (.wit (.unknownReference ("Unknown reference " ++ String.mk name ++ ".")))
    | some v => pure v
  if shas.length > 1 then
    let candidates := shas.foldl (fun acc s => acc ++ "\n- " ++ String.mk s) ""
    .error (.wit (.ambiguousReference
      ("Ambiguous reference " ++ String.mk name ++ ": Candidates are:" ++ candidates ++ "\n")))
  else do
    let sha ← match shas.head? with
      | some s => pure s
      | none => .error (.panicked "called Option::unwrap on a None value")
    match fmt with
    | none => pure sha
    | some fmtStr => do
      let obj ← read fs repo sha
      let objFmt := obj.fmt
      let fmtB := strBytes fmtStr
      if objFmt = fmtB then pure sha
      else if !follow then
        .error (.wit (.unknownObject ("Unknown object " ++ String.mk sha ++ ".")))
      else do
        let sha2 : List Char ←
          match obj with
          | .tagObject tg =>
            match kvlmGet tg.kvlm "object" with
            | none => .error (.panicked "called Option::unwrap on a None value")
            | some vs =>
              match vs.head? with
              | none => .error (.panicked "called Option::unwrap on a None value")
              | some v => pure v
          | .commitObject cm =>
            if fmtB = strBytes "tree" then
              match kvlmGet cm.kvlm "tree" with
              | none => .error (.panicked "called Option::unwrap on a None value")
              | some vs =>
                match vs.head? with
                | none => .error (.panicked "called Option::unwrap on a None value")
                | some v => pure v
            else pure sha
          | _ => pure sha
        .error (.wit (.unknownObject ("Unknown object " ++ String.mk sha2 ++ ".")))

/-- `write(obj, actually_write)` (`object.rs` 230-258): build the frame
`kind SP length NUL payload`, digest it, and — when persisting — compress
the frame and write it to the path `Repository::file(repo, ["objects"],
actually_write)` resolves to.  Returns the digest and the resulting
filesystem state. -/
def write (fs : FS) (obj : WitObject) (actuallyWrite : Bool) : Res (List Char × FS) := do
  let data ← obj.serialize
  let result := obj.fmt ++ [32] ++ asciiOfNat data.length ++ [0] ++ data
  let sha := sha1hex result
  if actuallyWrite then do
    let encoded := zlibEncode result
    let repo ← match obj.repo with
      | some r => pure r
      | none => .error (.wit (.repoNotFound "No repo found for object"))
    let pf ← Repository.file fs repo [objectsC] actuallyWrite
    let fs2 := fsWrite pf.2 pf.1 encoded
    pure (sha, fs2)
  else pure (sha, fs)

/-- `hash(fd, fmt, repo)` (`object.rs` 270-272):
`write(build(fmt, repo, Some(fs::read(fd)?))?, repo.is_none())`. -/
def hash (fs : FS) (fd : FsPath) (fmt : String) (repo : Option Repository) :
    Res (List Char × FS) := do
  let data ← fsRead fs fd
  let obj ← build fmt repo (some data)
  write fs obj repo.isNone

/-- `graphviz(repo, sha, seen)` (`object.rs` 274-302): seen-set guard,
read the commit, emit one edge per parent and recurse.  `println!` output
is accumulated in `out`; `fuel` bounds the call-stack depth (exhaustion
is the host's stack overflow).  Returns the final seen set and output. -/
def graphviz (fuel : Nat) (fs : FS) (repo : Repository) (sha : List Char)
    (seen : List (List Char)) (out : List String) :
    Res (List (List Char) × List String) :=
  match fuel with
  | 0 => .error (.panicked "stack overflow")
  | f + 1 =>
    if seen.contains sha then .ok (seen, out)
    else do
      let seen1 := seen ++ [sha]
      let obj ← read fs repo sha
      let cm ← match obj with
        | .commitObject c =>
          if c.fmt = strBytes "commit" then pure c
          else .error (.wit (.malformedObject ("Malformed commit " ++ String.mk sha)))
        | other =>
          .error (.wit (.unknownObject
            ("Cannot log a non-commit object; found " ++ bytesToStrOr other.fmt "<invalid>")))
      if (kvlmGet cm.kvlm "parent").isNone then .ok (seen1, out)
      else do
        let parents ← match kvlmGet cm.kvlm "parent" with
          | some ps => pure ps
          | none => .error (.wit (.malformedObject "No parent"))
        parents.foldlM (fun st p => do
          let out1 := st.2 ++ ["c_" ++ String.mk sha ++ " -> c_" ++ String.mk p]
          graphviz f fs repo p st.1 out1) (seen1, out)

/-- `checkout(repo, tree, path)` (`object.rs` 304-329): for each leaf,
read the object; a blob writes its payload at `path/leaf-path`; a tree
creates that directory and recurses; anything else is an unknown-object
error naming `path` and the kind.  `fuel` bounds the call-stack depth. -/
def checkout (fuel : Nat) (fs : FS) (repo : Repository) (tree : Tree) (path : FsPath) :
    Res FS :=
  match fuel with
  | 0 => .error (.panicked "stack overflow")
  | f + 1 =>
    tree.leaves.foldlM (fun fsAcc leaf => do
      let obj ← read fsAcc repo leaf.sha
      let dest := path ++ [leaf.pathSeg]
      match obj with
      | .blobObject b => pure (fsWrite fsAcc dest b.data)
      | .treeObject t => checkout f (createDirAll fsAcc dest) repo t dest
      | other =>
        .error (.wit (.unknownObject
          ("Object " ++ String.mk (path.foldl (fun a c => a ++ c ++ ['/']) []) ++ " of type "
            ++ bytesToStrOr other.fmt "unknown" ++ " cannot be checked out.")))) fs

/-! ### Concrete states used to evaluate the claims -/

/-- A repository rooted at the filesystem root, with no `HEAD`. -/
def repo0 : Repository := { gitdir := [], head := none }

/-- The bare filesystem: no files, only the root directory. -/
def fs0 : FS := { files := [], dirs := [[]] }

/-- A blob object carrying `repo0` with payload `"hi"`. -/
def blob0 : WitObject := .blobObject (Blob.new (some repo0) [104, 105])

/-- The round trip of the claims: persist `obj`, read the returned digest
back, and extract the payload. -/
def roundTrip (fs : FS) (repo : Repository) (obj : WitObject) : Res (List Nat) := do
  let r ← write fs obj true
  let obj2 ← read r.2 repo r.1
  obj2.serialize

/-- The 40-character digest consisting of one repeated hex character. -/
def shaOf (c : Char) : List Char := List.replicate 40 c

/-- The fan-out path `objects/<first 2>/<remaining 38>` for a digest. -/
def fanPath (sha : List Char) : FsPath := [objectsC, sha.take 2, sha.drop 2]

/-- A frame whose declared length (3) disagrees with its payload length
(2): `"blob 3\0hi"`. -/
def frameBadLen : List Nat := strBytes "blob 3" ++ [0] ++ [104, 105]

/-- A store holding exactly one object file: the bad-length frame of
`frameBadLen`, compressed, at the fan-out path of the digest `"aa…a"`. -/
def fsBad : FS :=
  { files := [(fanPath (shaOf 'a'), zlibEncode frameBadLen)],
    dirs := [[], [objectsC], [objectsC, ['a', 'a']]] }

/-- A plausible commit frame; its contents never reach the decoder. -/
def commitFrame (parent : Option (List Char)) : List Nat :=
  strBytes "commit 10" ++ [0] ++ (match parent with
    | some p => strBytes "parent " ++ charsBytes p ++ [10]
    | none => [])

/-- The linear history of the claim: `C1 <- C2 <- C3`, stored at the
digests `"aa…a"`, `"bb…b"`, `"cc…c"` (each file at its fan-out path). -/
def fsHist : FS :=
  { files := [ (fanPath (shaOf 'c'), zlibEncode (commitFrame (some (shaOf 'b'))))
             , (fanPath (shaOf 'b'), zlibEncode (commitFrame (some (shaOf 'a'))))
             , (fanPath (shaOf 'a'), zlibEncode (commitFrame none)) ],
    dirs := [[], [objectsC], [objectsC, ['c', 'c']], [objectsC, ['b', 'b']],
             [objectsC, ['a', 'a']]] }

/-- A tree with a single blob leaf `"a.txt" -> "bb…b"`. -/
def leafA : TreeLeaf :=
  { mode := strBytes "100644", pathSeg := "a.txt".toList, sha := shaOf 'b' }

/-- The tree holding `leafA`. -/
def treeA : Tree := { leaves := [leafA], raw := serializeLeaves [leafA] }

/-- A store holding the blob `"hi"` at the fan-out path of `"bb…b"`, plus
an existing destination directory `dst`. -/
def fsCo : FS :=
  { files := [(fanPath (shaOf 'b'), zlibEncode (strBytes "blob 2" ++ [0] ++ [104, 105]))],
    dirs := [[], [objectsC], [objectsC, ['b', 'b']], [['d', 's', 't']]] }

/-- The claim's notion for the Byte-Scanner: the first position (absolute
index) at or after the start offset `s` at which `e` occurs in `l`,
scanning the indices upward from the head. -/
def firstAtOrAfter : List Nat → Nat → Nat → Option Nat
  | [], _, _ => none
  | a :: t, e, s =>
    if s = 0 ∧ a = e then some 0
    else (firstAtOrAfter t e (s - 1)).map (fun i => i + 1)

/-- The claim's candidate list for a short hex name (spec §4.4, after the
resolver's documented lowercase normalization): the full digests
reconstructed — first two characters plus filename — from the entries of
the fan-out directory `objects/<first two characters>` whose filename
starts with the remaining prefix characters; an absent fan-out directory
yields no candidates. -/
def claimCandidates (fs : FS) (repo : Repository) (name : List Char) : List (List Char) :=
  let lname := name.map lowerChar
  let pfx := lname.take 2
  let rem := lname.drop 2
  let dirPath := repo.gitdir ++ [objectsC, pfx]
  if fs.dirs.contains dirPath then
    ((childrenOf fs dirPath).filter (fun f => rem.isPrefixOf f)).map (fun f => pfx ++ f)
  else []

/-- A store whose fan-out directory `objects/ab` holds three entries, two
of them continuing the prefix `abcd`. -/
def fsResolve : FS :=
  { files := [ ([objectsC, ['a', 'b'], "cd".toList ++ List.replicate 36 '0'], [1])
             , ([objectsC, ['a', 'b'], "ce".toList ++ List.replicate 36 '0'], [2])
             , ([objectsC, ['a', 'b'], "cd".toList ++ List.replicate 36 '1'], [3]) ],
    dirs := [[], [objectsC], [objectsC, ['a', 'b']]] }

/-! ### Claim theorems -/

/-- C1.  The round-trip claim fails on the code: writing `build(blob,
"hi")` with persistence enabled stores the compressed frame at the path
`objects` (not the fan-out path), and `read` on the returned digest then
fails — here with the path-not-found error for the absent fan-out
directory — instead of yielding an object whose payload is `"hi"`.  Even
with the file in place, `read` cannot succeed: its decompression requests
zero bytes (`read_exact` into `Vec::new()`), so the header scan of the
empty buffer fails (see `c3_read_bad_length_is_io_error`). -/
theorem c1_round_trip_fails :
    roundTrip fs0 repo0 blob0 = .error (.wit (.ioErr "Path not found")) := by decide

/-- C2.  With persistence enabled, `write` does not store the object at
`objects/<first 2 hex chars>/<remaining 38 hex chars>`: the only file the
store holds afterwards sits at the single-component path `objects`,
because the source passes `vec!["objects"]` alone to `Repository::file`,
never consulting the digest (whose 40 characters are computed and
returned). -/
theorem c2_write_ignores_fanout_path :
    (write fs0 blob0 true).map (fun r => (r.1.length, r.2.files.map Prod.fst)) =
      .ok (40, [[objectsC]]) := by decide

/-- C3.  Reading a stored object whose frame declares length 3 for a
2-byte payload does not produce the malformed-object error naming the
digest: `read` fails with the I/O error `"32 not found."`, because
`read_exact` into the empty `Vec::new()` decodes zero bytes and the space
scan of the empty buffer misses, long before the length check. -/
theorem c3_read_bad_length_is_io_error :
    read fsBad repo0 (shaOf 'a') = .error (.wit (.ioErr "32 not found.")) := by decide

/-- C4.  A name resolving to zero candidates does not produce the
unknown-reference error: `find(repo, "deadbeef", None, false)` with no
matching object panics on `sha.get(0).unwrap()`, since `resolve` returns
`Some(vec![])` (the unknown-reference error fires only for the `None` of
a whitespace-only name). -/
theorem c4_zero_candidates_panics :
    find fs0 repo0 ("deadbeef".toList) none false =
      .error (.panicked "called Option::unwrap on a None value") := by decide

/-- C5.  `find` with a wanted kind and `follow = true` never returns a
followed digest: with the object file present at its fan-out path, the
`read` of the resolved digest already fails with the decoder's I/O error
(`"32 not found."`), so the kind comparison and the dereference are
unreachable; and even granting a successful read, the source's `loop`
body ends in an unconditional `return Err(unknown_object_err(...))` after
computing the followed digest. -/
theorem c5_follow_never_returns_digest :
    find fsBad repo0 (shaOf 'a') (some "commit") true =
      .error (.wit (.ioErr "32 not found.")) := by decide

/-- C8.  On the stored history `C1 <- C2 <- C3`, `graphviz` starting from
`C3` with an empty seen set does not emit the two edges: it aborts with
the decoder's I/O error on the very first `read`, emitting nothing. -/
theorem c8_graphviz_aborts_on_first_read :
    graphviz 9 fsHist repo0 (shaOf 'c') [] [] =
      .error (.wit (.ioErr "32 not found.")) := by decide

/-- C9.  Checking out a tree with one blob leaf `"a.txt"` (whose blob is
stored at its fan-out path) writes nothing: the `read` of the leaf digest
fails with the decoder's I/O error before any file is written. -/
theorem c9_checkout_aborts_on_first_read :
    checkout 9 fsCo repo0 treeA [['d', 's', 't']] =
      .error (.wit (.ioErr "32 not found.")) := by decide

/-- Bridge between the claim's absolute position and the code's
skip-then-position scan: the code's index is the absolute one shifted
down by the start offset. -/
theorem firstAtOrAfter_eq_findIdx (l : List Nat) (e : Nat) (s : Nat) :
    firstAtOrAfter l e s = ((l.drop s).findIdx? (fun el => el == e)).map (fun i => i + s) := by
  induction l generalizing s with
  | nil => simp [firstAtOrAfter]
  | cons a t ih =>
    cases s with
    | zero =>
      by_cases h : a = e
      · simp [firstAtOrAfter, h]
      · simp only [firstAtOrAfter, List.drop_zero]
        rw [List.findIdx?_cons]
        simp only [h, if_neg, beq_iff_eq, if_false, Nat.zero_sub]
        rw [List.findIdx?_start_succ, ih 0]
        simp only [List.drop_zero, Option.map_map]
        rfl
    | succ s' =>
      simp only [firstAtOrAfter, Nat.succ_ne_zero, false_and, if_false, Nat.succ_sub_one,
        List.drop_succ_cons]
      rw [ih s']
      simp only [Option.map_map]
      congr 1

/-- The spec-side meaning of `firstAtOrAfter`: when it yields `i`, the
target sits at absolute index `i`, `i` is at or after the start offset,
and no earlier index at or after the start offset holds the target; when
it yields nothing, no index at or after the start offset holds the
target. -/
theorem firstAtOrAfter_is_first (l : List Nat) (e s : Nat) :
    match firstAtOrAfter l e s with
    | some i => s ≤ i ∧ l[i]? = some e ∧ ∀ j, s ≤ j → j < i → l[j]? ≠ some e
    | none => ∀ j, s ≤ j → l[j]? ≠ some e := by
  induction l generalizing s with
  | nil => simp [firstAtOrAfter]
  | cons a t ih =>
    simp only [firstAtOrAfter]
    by_cases h0 : s = 0 ∧ a = e
    · rw [if_pos h0]
      obtain ⟨hs, ha⟩ := h0
      subst hs
      subst ha
      exact ⟨Nat.le_refl 0, by simp, fun j _ hj => absurd hj (by omega)⟩
    · rw [if_neg h0]
      have hrec := ih (s - 1)
      cases h : firstAtOrAfter t e (s - 1) with
      | none =>
        rw [h] at hrec
        simp only [Option.map_none']
        intro j hj
        cases j with
        | zero =>
          have hs0 : s = 0 := by omega
          have hane : ¬ a = e := fun ha => h0 ⟨hs0, ha⟩
          simp [hane]
        | succ j' =>
          simp only [List.getElem?_cons_succ]
          exact hrec j' (by omega)
      | some i =>
        rw [h] at hrec
        simp only [Option.map_some']
        obtain ⟨hsi, hti, hmin⟩ := hrec
        refine ⟨by omega, by simpa using hti, ?_⟩
        intro j hj hji
        cases j with
        | zero =>
          have hs0 : s = 0 := by omega
          have hane : ¬ a = e := fun ha => h0 ⟨hs0, ha⟩
          simp [hane]
        | succ j' =>
          simp only [List.getElem?_cons_succ]
          exact hmin j' (by omega) (by omega)

/-- C7 (amended).  Each Byte-Scanner variant reports the *offset from the
start position* of the first occurrence of the target at or after the
start offset — the absolute position minus the start offset, not the
absolute position itself: `find_from` returns it or a not-found error,
`find_some` returns it or `none`, `find_signed` returns it or `-1`, and
`find_exact` returns it when the target is present (and panics
otherwise). -/
theorem c7_scanner_relative_positions (l : List Nat) (e s : Nat) :
    match firstAtOrAfter l e s with
    | some i =>
        s ≤ i ∧ find_from l e s = .ok (i - s) ∧ find_some l e s = some (i - s) ∧
        find_signed l e s = ((i - s : Nat) : Int) ∧ find_exact l e s = .ok (i - s)
    | none =>
        find_from l e s = .error (.wit (.ioErr (Nat.repr e ++ " not found."))) ∧
        find_some l e s = none ∧ find_signed l e s = (-1 : Int) ∧
        find_exact l e s = .error (.panicked "called Option::unwrap on a None value") := by
  have hb := firstAtOrAfter_eq_findIdx l e s
  cases h : (l.drop s).findIdx? (fun el => el == e) with
  | none =>
    rw [h] at hb
    simp only [Option.map_none'] at hb
    rw [hb]
    exact ⟨by simp [find_from, h], by simp [find_some, h], by simp [find_signed, h],
      by simp [find_exact, h]⟩
  | some j =>
    rw [h] at hb
    simp only [Option.map_some'] at hb
    rw [hb]
    have hjs : j + s - s = j := by omega
    exact ⟨by omega, by simp [find_from, h, hjs], by simp [find_some, h, hjs],
      by simp [find_signed, h, hjs], by simp [find_exact, h, hjs]⟩

/-- C7 (counterexample).  In `[10, 20, 10]` with start offset 1, the
first position at or after 1 holding 10 is 2, yet `find_from` returns 1
(the offset relative to the start), not 2. -/
theorem c7_find_from_not_absolute :
    find_from [10, 20, 10] 10 1 = .ok 1 ∧
    firstAtOrAfter [10, 20, 10] 10 1 = some 2 ∧
    ¬ find_from [10, 20, 10] 10 1 = .ok 2 := by decide

/-- C7 (witness).  The amended theorem evaluated at the counterexample's
input: the reported offset is `2 - 1 = 1` for all four variants. -/
theorem c7_scanner_relative_positions_witness :
    1 ≤ 2 ∧ find_from [10, 20, 10] 10 1 = .ok (2 - 1) ∧
    find_some [10, 20, 10] 10 1 = some (2 - 1) ∧
    find_signed [10, 20, 10] 10 1 = ((2 - 1 : Nat) : Int) ∧
    find_exact [10, 20, 10] 10 1 = .ok (2 - 1) := by
  have h := c7_scanner_relative_positions [10, 20, 10] 10 1
  have he : firstAtOrAfter [10, 20, 10] 10 1 = some 2 := by decide
  rw [he] at h
  exact h

/-- A whitespace character is not a hex digit. -/
theorem ws_not_hex (c : Char) (h : isWsChar c = true) : isHexDigitChar c = false := by
  have hc : c = ' ' ∨ c = '\t' ∨ c = '\n' ∨ c = '\r' := by
    simpa [isWsChar, Bool.or_eq_true, beq_iff_eq, or_assoc] using h
  rcases hc with rfl | rfl | rfl | rfl <;> decide

/-- A loop that appends `g f` for every `f` passing `p` is
filter-then-map. -/
theorem foldl_push_filter {α β : Type} (p : α → Bool) (g : α → β) (files : List α)
    (acc : List β) :
    files.foldl (fun a f => if p f then a ++ [g f] else a) acc
      = acc ++ (files.filter p).map g := by
  induction files generalizing acc with
  | nil => simp
  | cons f fl ih =>
    rw [List.foldl_cons, List.filter_cons]
    cases h : p f with
    | true => simp [h, ih, List.append_assoc]
    | false => simp [h, ih]

/-- C6.  For every hex name of 4 to 39 characters, `resolve` returns
exactly the candidates of the claim: the full digests reconstructed from
the entries of the fan-out directory whose filename starts with the
remaining prefix characters, and zero candidates — without an error —
when that directory is absent. -/
theorem c6_short_prefix_resolution (fs : FS) (repo : Repository) (name : List Char)
    (h1 : hashReMatch name = true) (h2 : name.length ≤ 39) :
    resolve fs repo name = .ok (some (claimCandidates fs repo name)) := by
  have hparts : 4 ≤ name.length ∧ name.length ≤ 40 ∧ name.all isHexDigitChar = true := by
    have h := h1
    unfold hashReMatch at h
    simp only [Bool.and_eq_true, decide_eq_true_eq] at h
    exact ⟨h.1.1, h.1.2, h.2⟩
  obtain ⟨hlen4, _, hhex⟩ := hparts
  have hnb : name.all isWsChar = false := by
    cases name with
    | nil => simp at hlen4
    | cons c rest =>
      have hc : isHexDigitChar c = true := by
        simp only [List.all_cons, Bool.and_eq_true] at hhex
        exact hhex.1
      cases hws : isWsChar c with
      | false => simp [List.all_cons, hws]
      | true => rw [ws_not_hex c hws] at hc; exact absurd hc (by simp)
  have hhd : ¬ name = "HEAD".toList := by
    intro h
    rw [h] at hhex
    exact absurd hhex (by decide)
  have hlname : (name.map lowerChar).length = name.length := List.length_map name lowerChar
  unfold resolve claimCandidates
  rw [hnb]
  simp only [Bool.false_eq_true, if_false]
  rw [if_neg hhd, if_pos h1]
  rw [if_neg (by rw [hlname]; omega)]
  unfold Repository.dir
  simp only [Bool.false_eq_true, if_false]
  by_cases hdir : fs.dirs.contains (repo.gitdir ++ [objectsC, (name.map lowerChar).take 2])
  · rw [if_pos hdir, if_pos hdir]
    simp only [foldl_push_filter, List.nil_append]
  · rw [if_neg hdir, if_neg hdir]

/-- C6 (witness).  The theorem applied to `fsResolve` and the name
`abcd`: exactly the two matching entries are reconstructed into full
digests; the `ce…`-entry is not. -/
theorem c6_short_prefix_resolution_witness :
    hashReMatch ("abcd".toList) = true ∧ ("abcd".toList).length ≤ 39 ∧
    resolve fsResolve repo0 ("abcd".toList) =
      .ok (some (claimCandidates fsResolve repo0 ("abcd".toList))) ∧
    claimCandidates fsResolve repo0 ("abcd".toList) =
      [ "abcd".toList ++ List.replicate 36 '0', "abcd".toList ++ List.replicate 36 '1' ] :=
  ⟨by decide, by decide,
    c6_short_prefix_resolution fsResolve repo0 ("abcd".toList) (by decide) (by decide),
    by decide⟩

/-- C10.  `hash` requests persistence exactly when no repository is
supplied: with a repository present it only computes and returns the
digest, leaving the filesystem untouched; with no repository it requests
a persisting write, which always fails with the repository-not-found
error (the object built without a repository carries none to write to). -/
theorem c10_hash_persistence_inverted (fs : FS) (fd : FsPath) (fmt : String)
    (data : List Nat)
    (hfmt : fmt = "blob" ∨ fmt = "commit" ∨ fmt = "tree" ∨ fmt = "tag")
    (hread : fsRead fs fd = .ok data) :
    (∀ r : Repository, ∃ sha, hash fs fd fmt (some r) = .ok (sha, fs)) ∧
    hash fs fd fmt none = .error (.wit (.repoNotFound "No repo found for object")) := by
  rcases hfmt with rfl | rfl | rfl | rfl <;>
    exact ⟨fun r => ⟨_, by unfold hash; rw [hread]; rfl⟩, by unfold hash; rw [hread]; rfl⟩

/-- C10 (witness).  The theorem applied to a one-file store: hashing the
file as a blob with `repo0` succeeds without touching the store, and
hashing it with no repository fails with the repository-not-found error. -/
theorem c10_hash_persistence_inverted_witness :
    hash (FS.mk [([['f']], [104, 105])] [[]]) [['f']] "blob" none =
      .error (.wit (.repoNotFound "No repo found for object")) :=
  (c10_hash_persistence_inverted (FS.mk [([['f']], [104, 105])] [[]]) [['f']] "blob"
    [104, 105] (Or.inl rfl) (by decide)).2

end Wyag
